import Mathlib

/-!
Verification of the SkPathRef storage container (src/include/core/SkPathRef.h).

SkPathRef stores the verbs and points of a path in one allocation: points at
the low end growing upward, verbs at the high end growing downward, with a
free gap in the middle. It is reference counted, versioned by a generation
ID, caches its bounds, and is mutated only through a scoped Editor that
performs copy-on-write.

The embedding below translates the header into Lean:
* sizes are in bytes (`Nat`); an SkPoint is 8 bytes, a verb 1 byte;
* a scalar (32-bit float) is modelled as a value with a finiteness flag;
  no claim depends on float rounding, only on finiteness propagation and
  on bitwise (structural) comparison;
* each storage is a record of the fields of the C++ class; verb lists are
  kept in logical order (index i is atVerb(i)); the reversed in-memory
  layout is modelled at byte level by `makeSpaceBuf` for the layout claim;
* uninitialized slots created by resetToSize and grow are modelled as
  zeroed junk values; every code path a claim inspects overwrites them.
-/

namespace SkiaPathRef

/-- Size in bytes of an SkPoint (two 32-bit SkScalar floats). -/
def ptSize : Nat := 8

/-- SkPathRef::kMinSize, the minimum growth of the packed allocation. -/
def kMinSize : Nat := 256

/-- Scalar model: a 32-bit float modelled as an integer value together with
a finiteness flag. Structural equality of this type models bitwise (memcmp)
equality of the underlying float. -/
structure SkScalar where
  val : Int
  fin : Bool
deriving DecidableEq

/-- The zero scalar. -/
def scalarZero : SkScalar := ⟨0, true⟩

/-- An SkPoint: an x and a y scalar. -/
structure SkPoint where
  x : SkScalar
  y : SkScalar
deriving DecidableEq

/-- SkPoint::isFinite: both coordinates are finite. -/
def SkPoint.isFiniteP (p : SkPoint) : Bool := p.x.fin && p.y.fin

/-- The zero point. -/
def ptZero : SkPoint := ⟨scalarZero, scalarZero⟩

/-- An SkRect: left, top, right, bottom scalars. -/
structure SkRect where
  left : SkScalar
  top : SkScalar
  right : SkScalar
  bottom : SkScalar
deriving DecidableEq

/-- SkRect::setEmpty sets all four coordinates to zero. -/
def emptyRect : SkRect := ⟨scalarZero, scalarZero, scalarZero, scalarZero⟩

/-- SkRect::isFinite: all four coordinates are finite. -/
def SkRect.isFiniteR (r : SkRect) : Bool :=
  r.left.fin && r.top.fin && r.right.fin && r.bottom.fin

/-- SkMatrix, abstractly: the two predicates SkPathRef consults plus the two
mapping operations it applies. The container never looks inside the matrix. -/
structure SkMatrix where
  isIdentityM : Bool
  rectStaysRectM : Bool
  mapPointM : SkPoint → SkPoint
  mapRectM : SkRect → SkRect

/-- The state of one SkPathRef. `fAllocSize` is currSize(), the byte size of
the single allocation (the source computes it as fVerbs minus fPoints); verb
lists are stored in logical order (element i is atVerb(i)). -/
structure SkPathRef where
  fAllocSize : Nat
  fFreeSpace : Nat
  fVerbs : List Nat
  fPoints : List SkPoint
  fConicWeights : List SkScalar
  fBounds : SkRect
  fBoundsIsDirty : Bool
  fIsFinite : Bool
  fGenerationID : Nat
deriving DecidableEq

/-- SkPathRef::currSize. -/
def SkPathRef.currSize (s : SkPathRef) : Nat := s.fAllocSize

/-- SkPathRef::countVerbs. -/
def SkPathRef.countVerbs (s : SkPathRef) : Nat := s.fVerbs.length

/-- SkPathRef::countPoints. -/
def SkPathRef.countPoints (s : SkPathRef) : Nat := s.fPoints.length

/-- The private SkPathRef constructor: no allocation, empty content, bounds
dirty, generation ID = kEmptyGenID (1). The uninitialized fBounds and
fIsFinite fields are modelled as zeroed. -/
def emptyPathRef : SkPathRef :=
  { fAllocSize := 0, fFreeSpace := 0, fVerbs := [], fPoints := [],
    fConicWeights := [], fBounds := emptyRect, fBoundsIsDirty := true,
    fIsFinite := false, fGenerationID := 1 }

/-- The growth amount computed inside SkPathRef::makeSpace when the free
space is insufficient: the shortfall rounded up to a multiple of 8, clamped
up to at least the old allocation size and at least kMinSize. -/
def growAmount (oldSize freeSpace size : Nat) : Nat :=
  let g0 := size - freeSpace
  let g1 := ((g0 + 7) / 8) * 8
  let g2 := if g1 < oldSize then oldSize else g1
  if g2 < kMinSize then kMinSize else g2

/-- SkPathRef::makeSpace at the level of sizes: ensure at least `size` bytes
of free space; a no-op when enough is already free, otherwise the allocation
and the free space both grow by `growAmount`. -/
def makeSpace (s : SkPathRef) (size : Nat) : SkPathRef :=
  if size ≤ s.fFreeSpace then s
  else
    let g := growAmount s.fAllocSize s.fFreeSpace size
    { s with fAllocSize := s.fAllocSize + g, fFreeSpace := s.fFreeSpace + g }

/-- SkPathRef::makeSpace at byte level. The allocation is a list of bytes:
the first ptSize * pointCnt bytes are the points, the last verbCnt bytes are
the verbs (in reverse memory order), the middle is free. realloc copies the
whole old buffer to the front of the new one (the fresh tail is junk,
modelled as zero), then memmove places the verb bytes flush with the new
high end. Returns the new buffer and the new free-space counter. -/
def makeSpaceBuf (buf : List Nat) (verbCnt freeSpace size : Nat) :
    List Nat × Nat :=
  if size ≤ freeSpace then (buf, freeSpace)
  else
    let oldSize := buf.length
    let g := growAmount oldSize freeSpace size
    let newSize := oldSize + g
    let re := buf ++ List.replicate g 0
    ((re.take (newSize - verbCnt)) ++ buf.drop (oldSize - verbCnt),
      freeSpace + g)

/-- SkPathRef::incReserve: room for additional verbs and points. -/
def incReserve (s : SkPathRef) (additionalVerbs additionalPoints : Nat) :
    SkPathRef :=
  makeSpace s (additionalVerbs * 1 + additionalPoints * ptSize)

/-- SkPathRef::grow: increase the verb and point counts, the new slots
uninitialized (modelled as zeroed junk); marks the bounds dirty. -/
def grow (s : SkPathRef) (newVerbs newPoints : Nat) : SkPathRef :=
  let space := newVerbs * 1 + newPoints * ptSize
  let s1 := makeSpace s space
  { s1 with fVerbs := s1.fVerbs ++ List.replicate newVerbs 0,
            fPoints := s1.fPoints ++ List.replicate newPoints ptZero,
            fFreeSpace := s1.fFreeSpace - space,
            fBoundsIsDirty := true }

/-- SkTDArray::setCount: resize, keeping the existing prefix; new slots are
uninitialized (modelled as zeroed junk). -/
def setCountL (l : List SkScalar) (n : Nat) : List SkScalar :=
  l.take n ++ List.replicate (n - l.length) scalarZero

/-- The branch condition of SkPathRef::resetToSize, written as in the
source: sizeDelta = currSize - minSize as a signed ptrdiff_t; reallocate
when it is negative or at least 3 * minSize. -/
def resetReallocCond (curr minSize : Nat) : Bool :=
  ((curr : Int) - (minSize : Int) < 0) ||
    ((curr : Int) - (minSize : Int) ≥ 3 * (minSize : Int))

/-- SkPathRef::resetToSize: new verb, point and conic counts, all slots
uninitialized (modelled as zeroed junk), with reservation hints. Either
frees and reallocates (when the allocation is too small or more than 4x the
needed minimum) or reuses the buffer. -/
def resetToSize (s : SkPathRef)
    (verbCount pointCount conicCount reserveVerbs reservePoints : Nat) :
    SkPathRef :=
  let s0 := { s with fBoundsIsDirty := true, fGenerationID := 0 }
  let newSize := verbCount * 1 + pointCount * ptSize
  let newReserve := reserveVerbs * 1 + reservePoints * ptSize
  let minSize := newSize + newReserve
  let s1 :=
    if resetReallocCond s0.fAllocSize minSize then
      let sf := { s0 with fAllocSize := 0, fFreeSpace := 0,
                          fVerbs := [], fPoints := [] }
      let sm := makeSpace sf minSize
      { sm with fVerbs := List.replicate verbCount 0,
                fPoints := List.replicate pointCount ptZero,
                fFreeSpace := sm.fFreeSpace - newSize }
    else
      { s0 with fVerbs := List.replicate verbCount 0,
                fPoints := List.replicate pointCount ptZero,
                fFreeSpace := s0.fAllocSize - minSize }
  { s1 with fConicWeights := setCountL s1.fConicWeights conicCount }

/-- SkPathRef::Rewind on a uniquely owned storage: zero the counts, set the
free space to the whole allocation, dirty the bounds, clear the generation
ID, rewind the conic weights. -/
def rewindUnique (s : SkPathRef) : SkPathRef :=
  { s with fBoundsIsDirty := true, fVerbs := [], fPoints := [],
           fFreeSpace := s.fAllocSize, fGenerationID := 0,
           fConicWeights := [] }

/-- SkPathRef::Rewind on a shared storage: the handle is redirected to a
fresh storage sized with the old counts as reservation hints. -/
def rewindShared (s : SkPathRef) : SkPathRef :=
  resetToSize emptyPathRef 0 0 0 s.fVerbs.length s.fPoints.length

/-- SkPathRef::copy: resetToSize to the source counts (with reservation
hints), then copy the verb bytes, the points, the conic weights, the
generation ID and the bounds cache (bounds and finiteness only when the
cache is clean; a dirty cache leaves the junk from the constructor). -/
def pathRefCopy (ref : SkPathRef)
    (additionalReserveVerbs additionalReservePoints : Nat) : SkPathRef :=
  let s := resetToSize emptyPathRef ref.fVerbs.length ref.fPoints.length
             ref.fConicWeights.length additionalReserveVerbs
             additionalReservePoints
  let s := { s with fVerbs := ref.fVerbs, fPoints := ref.fPoints,
                    fConicWeights := ref.fConicWeights,
                    fGenerationID := ref.fGenerationID,
                    fBoundsIsDirty := ref.fBoundsIsDirty }
  if ref.fBoundsIsDirty then s
  else { s with fBounds := ref.fBounds, fIsFinite := ref.fIsFinite }

/-- SkPathRef::Editor::Editor acting on the storage a handle references:
when uniquely owned, incReserve in place; otherwise deep-copy into a fresh
storage. In both cases the resulting storage gets generation ID 0. -/
def editorAttach (unique : Bool) (s : SkPathRef)
    (incReserveVerbs incReservePoints : Nat) : SkPathRef :=
  let s1 := if unique then incReserve s incReserveVerbs incReservePoints
            else pathRefCopy s incReserveVerbs incReservePoints
  { s1 with fGenerationID := 0 }

/-- Modelled from the spec: the table pointsForVerb supplied by the
enclosing path layer (spec 6.1); the body of SkPath is not under src/.
Verbs are encoded 0 = Move, 1 = Line, 2 = Quad, 3 = Conic, 4 = Cubic,
5 = Close, 6 = Done. -/
def pointsForVerb (v : Nat) : Nat :=
  match v with
  | 0 => 1
  | 1 => 1
  | 2 => 2
  | 3 => 2
  | 4 => 3
  | _ => 0

/-- Modelled from the spec: SkPathRef::growForVerb is declared in the
header but defined in SkPath.cpp, which is not under src/. Per spec 4.6 it
appends the verb, makes room for the points the verb consumes (the new
point slots uninitialized, modelled as zeroed junk) and dirties the
bounds. -/
def growForVerb (s : SkPathRef) (verb : Nat) : SkPathRef :=
  let pCnt := pointsForVerb verb
  let space := 1 + pCnt * ptSize
  let s1 := makeSpace s space
  { s1 with fVerbs := s1.fVerbs ++ [verb],
            fPoints := s1.fPoints ++ List.replicate pCnt ptZero,
            fFreeSpace := s1.fFreeSpace - space,
            fBoundsIsDirty := true }

/-- Modelled from the spec: SkPathRef::Editor::growForConic (spec 4.6) is
growForVerb with the Conic verb plus appending the weight. -/
def growForConic (s : SkPathRef) (w : SkScalar) : SkPathRef :=
  let s1 := growForVerb s 3
  { s1 with fConicWeights := s1.fConicWeights ++ [w] }

/-- The allocation-size invariant asserted by SkPathRef::validate:
currSize equals freeSpace plus one byte per verb plus ptSize bytes per
point. -/
def validI (s : SkPathRef) : Prop :=
  s.fAllocSize = s.fFreeSpace + s.fVerbs.length * 1 + s.fPoints.length * ptSize

instance (s : SkPathRef) : Decidable (validI s) := by
  unfold validI; infer_instance

/-- The deep content comparison performed by SkPathRef::operator==: point
counts, verb counts, verb bytes, point bytes and conic weights all match.
Comparing the logical verb lists is equivalent to the memcmp of the
reversed in-memory bytes, and structural point equality models the memcmp
of the point bytes. -/
def contentEq (a b : SkPathRef) : Prop :=
  a.fPoints.length = b.fPoints.length ∧
  a.fVerbs.length = b.fVerbs.length ∧
  a.fVerbs = b.fVerbs ∧
  a.fPoints = b.fPoints ∧
  a.fConicWeights = b.fConicWeights

instance (a b : SkPathRef) : Decidable (contentEq a b) := by
  unfold contentEq; infer_instance

/-- SkPathRef::operator== with the SK_RELEASE generation-ID shortcut: if
both generation IDs are nonzero and equal, return true immediately;
otherwise fall through the chain of early-return comparisons of the
source. The ID-adoption side effect happens after the result is decided
and does not alter it. -/
def opEq (a b : SkPathRef) : Bool :=
  if a.fGenerationID ≠ 0 ∧ a.fGenerationID = b.fGenerationID then true
  else if a.fPoints.length ≠ b.fPoints.length ∨
          a.fVerbs.length ≠ b.fVerbs.length then false
  else if a.fVerbs ≠ b.fVerbs then false
  else if a.fPoints ≠ b.fPoints then false
  else if a.fConicWeights ≠ b.fConicWeights then false
  else true

/-- One draw of the generation-ID loop in SkPathRef::genID: increment the
32-bit counter (the stamp equals the new counter value) and loop while the
stamp, compared as a signed int32, is at most kEmptyGenID = 1; that is,
while its unsigned representative is 0, 1 or at least 2^31. The fuel is an
upper bound on the loop length; with fuel 2^32 it never runs out. -/
def genLoop : Nat → Nat → Nat
  | 0, g => (g + 1) % 4294967296
  | fuel + 1, g =>
    let i := (g + 1) % 4294967296
    if i ≤ 1 ∨ 2147483648 ≤ i then genLoop fuel i else i

/-- The value drawn from the process-wide counter by SkPathRef::genID when
a fresh nonempty ID is needed; the counter ends up equal to the drawn
value. -/
def nextGenID (g : Nat) : Nat := genLoop 4294967296 g

/-- SkPathRef::genID: return the stamp, assigning one first if it is zero
(kEmptyGenID = 1 for empty content, otherwise the next counter value that
is a positive signed int32 greater than 1). Returns the stamp, the updated
storage and the updated process-wide counter. -/
def genIDRun (s : SkPathRef) (g : Nat) : Nat × SkPathRef × Nat :=
  if s.fGenerationID = 0 then
    if s.fPoints.length = 0 ∧ s.fVerbs.length = 0 then
      (1, { s with fGenerationID := 1 }, g)
    else
      let v := nextGenID g
      (v, { s with fGenerationID := v }, v)
  else (s.fGenerationID, s, g)

/-- SkRect::setBoundsCheck: when every point is finite the rect becomes
the tight bounds and true is returned; otherwise the rect is emptied and
false is returned. -/
def setBoundsCheck (pts : List SkPoint) : SkRect × Bool :=
  if pts.all SkPoint.isFiniteP then
    match pts with
    | [] => (emptyRect, true)
    | p :: _ =>
      let xs := pts.map (fun q => q.x.val)
      let ys := pts.map (fun q => q.y.val)
      (⟨⟨xs.foldl min p.x.val, true⟩, ⟨ys.foldl min p.y.val, true⟩,
        ⟨xs.foldl max p.x.val, true⟩, ⟨ys.foldl max p.y.val, true⟩⟩, true)
  else (emptyRect, false)

/-- SkPathRef::ComputePtBounds: with at most one point the bounds are set
empty and finiteness is true for zero points, the finiteness of the single
point otherwise; with two or more points, setBoundsCheck. -/
def ComputePtBounds (ref : SkPathRef) : SkRect × Bool :=
  let count := ref.fPoints.length
  if count ≤ 1 then
    (emptyRect, if count ≠ 0 then (ref.fPoints.headD ptZero).isFiniteP
                else true)
  else setBoundsCheck ref.fPoints

/-- SkPathRef::computeBounds: install the result of ComputePtBounds and
clear the dirty flag. -/
def computeBounds (s : SkPathRef) : SkPathRef :=
  let r := ComputePtBounds s
  { s with fBounds := r.1, fIsFinite := r.2, fBoundsIsDirty := false }

/-- SkPathRef::getBounds: compute the bounds when dirty; returns the rect
together with the updated (cached) storage. -/
def getBoundsSt (s : SkPathRef) : SkRect × SkPathRef :=
  if s.fBoundsIsDirty then
    let s2 := computeBounds s
    (s2.fBounds, s2)
  else (s.fBounds, s)

/-- SkPathRef::isFinite: compute the bounds when dirty; returns the flag
together with the updated (cached) storage. -/
def isFiniteSt (s : SkPathRef) : Bool × SkPathRef :=
  if s.fBoundsIsDirty then
    let s2 := computeBounds s
    (s2.fIsFinite, s2)
  else (s.fIsFinite, s)

/-- SkPathRef::setBounds. -/
def setBoundsSt (s : SkPathRef) (rect : SkRect) : SkPathRef :=
  { s with fBounds := rect, fBoundsIsDirty := false,
           fIsFinite := rect.isFiniteR }

/-- SkPathRef::CreateTransformedCopy, returning the storage the dst handle
references afterwards. With an identity matrix dst shares src. Otherwise,
when dst is not uniquely owned a fresh storage is sized to src and the
verb bytes and conic weights are copied; when dst is uniquely owned its
fields other than the points and the bounds cache are untouched. Then the
src points are mapped into the dst point region (in the C++ this is a raw
write of countPoints(src) points, well defined only when the region is at
least that large; the value model appends past the region on a mismatch).
canXformBounds is read from src before the points are mapped, which also
covers the aliased call where dst is src. -/
def CreateTransformedCopy (dstUnique : Bool) (dst src : SkPathRef)
    (matrix : SkMatrix) : SkPathRef :=
  if matrix.isIdentityM then src
  else
    let d0 :=
      if dstUnique then dst
      else
        let f := resetToSize emptyPathRef src.fVerbs.length
                   src.fPoints.length src.fConicWeights.length 0 0
        { f with fVerbs := src.fVerbs, fConicWeights := src.fConicWeights }
    let canXformBounds := ¬src.fBoundsIsDirty ∧ matrix.rectStaysRectM ∧
                          1 < src.fPoints.length
    let d1 := { d0 with fPoints := src.fPoints.map matrix.mapPointM ++
                                   d0.fPoints.drop src.fPoints.length }
    if canXformBounds then
      if src.fIsFinite then
        let mb := matrix.mapRectM src.fBounds
        if mb.isFiniteR then
          { d1 with fBoundsIsDirty := false, fBounds := mb,
                    fIsFinite := true }
        else
          { d1 with fBoundsIsDirty := false, fBounds := emptyRect,
                    fIsFinite := false }
      else
        { d1 with fBoundsIsDirty := false, fBounds := emptyRect,
                  fIsFinite := false }
    else { d1 with fBoundsIsDirty := true }

/-- A world of two path handles A and B over a heap of storages, enough to
observe sharing: a handle is an index into the heap and a storage is
uniquely owned by A exactly when B references a different index. -/
structure ShareWorld where
  heap : List SkPathRef
  hA : Nat
  hB : Nat

/-- Constructing an SkPathRef::Editor on handle A: when the storage is
uniquely owned it is updated in place (incReserve plus clearing the
generation ID); when shared, a fresh deep copy with generation ID 0 is
allocated at the end of the heap and handle A is redirected to it. -/
def editorAttachA (w : ShareWorld) (incReserveVerbs incReservePoints : Nat) :
    ShareWorld :=
  let s := w.heap.getD w.hA emptyPathRef
  if w.hB = w.hA then
    { heap := w.heap ++ [editorAttach false s incReserveVerbs incReservePoints],
      hA := w.heap.length, hB := w.hB }
  else
    { heap := w.heap.set w.hA
        (editorAttach true s incReserveVerbs incReservePoints),
      hA := w.hA, hB := w.hB }

/-! Helper lemmas about the size arithmetic. makeSpace only touches the
allocation size and the free-space counter, so every other field projects
through it; those projections are registered as simp lemmas. -/

theorem growAmount_ge (oldSize freeSpace size : Nat) :
    size - freeSpace ≤ growAmount oldSize freeSpace size := by
  simp only [growAmount]
  split_ifs <;> omega

@[simp]
theorem makeSpace_fVerbs (s : SkPathRef) (size : Nat) :
    (makeSpace s size).fVerbs = s.fVerbs := by
  simp only [makeSpace]; split_ifs <;> rfl

@[simp]
theorem makeSpace_fPoints (s : SkPathRef) (size : Nat) :
    (makeSpace s size).fPoints = s.fPoints := by
  simp only [makeSpace]; split_ifs <;> rfl

@[simp]
theorem makeSpace_fConicWeights (s : SkPathRef) (size : Nat) :
    (makeSpace s size).fConicWeights = s.fConicWeights := by
  simp only [makeSpace]; split_ifs <;> rfl

@[simp]
theorem makeSpace_fGenerationID (s : SkPathRef) (size : Nat) :
    (makeSpace s size).fGenerationID = s.fGenerationID := by
  simp only [makeSpace]; split_ifs <;> rfl

@[simp]
theorem makeSpace_fBounds (s : SkPathRef) (size : Nat) :
    (makeSpace s size).fBounds = s.fBounds := by
  simp only [makeSpace]; split_ifs <;> rfl

@[simp]
theorem makeSpace_fBoundsIsDirty (s : SkPathRef) (size : Nat) :
    (makeSpace s size).fBoundsIsDirty = s.fBoundsIsDirty := by
  simp only [makeSpace]; split_ifs <;> rfl

@[simp]
theorem makeSpace_fIsFinite (s : SkPathRef) (size : Nat) :
    (makeSpace s size).fIsFinite = s.fIsFinite := by
  simp only [makeSpace]; split_ifs <;> rfl

theorem makeSpace_free_ge (s : SkPathRef) (size : Nat) :
    size ≤ (makeSpace s size).fFreeSpace := by
  simp only [makeSpace]
  split_ifs with h
  · exact h
  · have := growAmount_ge s.fAllocSize s.fFreeSpace size
    simp only
    omega

theorem makeSpace_alloc (s : SkPathRef) (size : Nat) :
    (makeSpace s size).fAllocSize =
      if size ≤ s.fFreeSpace then s.fAllocSize
      else s.fAllocSize + growAmount s.fAllocSize s.fFreeSpace size := by
  simp only [makeSpace]
  split_ifs <;> rfl

theorem makeSpace_free (s : SkPathRef) (size : Nat) :
    (makeSpace s size).fFreeSpace =
      if size ≤ s.fFreeSpace then s.fFreeSpace
      else s.fFreeSpace + growAmount s.fAllocSize s.fFreeSpace size := by
  simp only [makeSpace]
  split_ifs <;> rfl

theorem validI_makeSpace (s : SkPathRef) (size : Nat) (h : validI s) :
    validI (makeSpace s size) := by
  unfold validI at *
  rw [makeSpace_alloc, makeSpace_free, makeSpace_fVerbs, makeSpace_fPoints]
  split_ifs <;> omega

theorem resetReallocCond_false (curr minSize : Nat)
    (h : resetReallocCond curr minSize = false) :
    minSize ≤ curr ∧ curr - minSize < 3 * minSize := by
  simp only [resetReallocCond, Bool.or_eq_false_iff,
    decide_eq_false_iff_not, not_lt, not_le] at h
  omega

theorem resetReallocCond_true_iff (curr minSize : Nat) :
    resetReallocCond curr minSize = true ↔
      (curr < minSize ∨ curr - minSize ≥ 3 * minSize) := by
  simp only [resetReallocCond, Bool.or_eq_true, decide_eq_true_eq]
  omega

@[simp]
theorem resetToSize_fVerbs (s : SkPathRef) (vN pN cN rV rP : Nat) :
    (resetToSize s vN pN cN rV rP).fVerbs = List.replicate vN 0 := by
  simp only [resetToSize]
  split_ifs <;> rfl

@[simp]
theorem resetToSize_fPoints (s : SkPathRef) (vN pN cN rV rP : Nat) :
    (resetToSize s vN pN cN rV rP).fPoints = List.replicate pN ptZero := by
  simp only [resetToSize]
  split_ifs <;> rfl

@[simp]
theorem resetToSize_fGenerationID (s : SkPathRef) (vN pN cN rV rP : Nat) :
    (resetToSize s vN pN cN rV rP).fGenerationID = 0 := by
  simp only [resetToSize]
  split_ifs <;> simp

@[simp]
theorem resetToSize_fBoundsIsDirty (s : SkPathRef) (vN pN cN rV rP : Nat) :
    (resetToSize s vN pN cN rV rP).fBoundsIsDirty = true := by
  simp only [resetToSize]
  split_ifs <;> simp

theorem setCountL_length (l : List SkScalar) (n : Nat) :
    (setCountL l n).length = n := by
  simp only [setCountL, List.length_append, List.length_take,
    List.length_replicate]
  omega

@[simp]
theorem resetToSize_fConicWeights_length (s : SkPathRef) (vN pN cN rV rP : Nat) :
    (resetToSize s vN pN cN rV rP).fConicWeights.length = cN := by
  simp only [resetToSize]
  split_ifs <;> exact setCountL_length _ _

theorem resetToSize_alloc_realloc (s : SkPathRef) (vN pN cN rV rP : Nat)
    (hc : resetReallocCond s.fAllocSize (vN * 1 + pN * ptSize + (rV * 1 + rP * ptSize)) = true) :
    (resetToSize s vN pN cN rV rP).fAllocSize =
      (makeSpace { s with fBoundsIsDirty := true, fGenerationID := 0,
                          fAllocSize := 0, fFreeSpace := 0,
                          fVerbs := [], fPoints := [] }
        (vN * 1 + pN * ptSize + (rV * 1 + rP * ptSize))).fAllocSize := by
  simp only [resetToSize]
  split_ifs
  rfl

theorem resetToSize_free_realloc (s : SkPathRef) (vN pN cN rV rP : Nat)
    (hc : resetReallocCond s.fAllocSize (vN * 1 + pN * ptSize + (rV * 1 + rP * ptSize)) = true) :
    (resetToSize s vN pN cN rV rP).fFreeSpace =
      (makeSpace { s with fBoundsIsDirty := true, fGenerationID := 0,
                          fAllocSize := 0, fFreeSpace := 0,
                          fVerbs := [], fPoints := [] }
        (vN * 1 + pN * ptSize + (rV * 1 + rP * ptSize))).fFreeSpace
        - (vN * 1 + pN * ptSize) := by
  simp only [resetToSize]
  split_ifs
  rfl

theorem resetToSize_reuse (s : SkPathRef) (vN pN cN rV rP : Nat)
    (hc : resetReallocCond s.fAllocSize (vN * 1 + pN * ptSize + (rV * 1 + rP * ptSize)) = false) :
    (resetToSize s vN pN cN rV rP).fAllocSize = s.fAllocSize ∧
    (resetToSize s vN pN cN rV rP).fFreeSpace =
      s.fAllocSize - (vN * 1 + pN * ptSize + (rV * 1 + rP * ptSize)) := by
  simp only [resetToSize]
  split_ifs with h
  · rw [h] at hc
    simp at hc
  · exact ⟨rfl, rfl⟩

theorem validI_resetToSize_free (s : SkPathRef) (vN pN cN rV rP : Nat)
    (h0 : s.fAllocSize = 0) :
    validI (resetToSize s vN pN cN rV rP) := by
  have hc : resetReallocCond s.fAllocSize
      (vN * 1 + pN * ptSize + (rV * 1 + rP * ptSize)) = true := by
    rw [resetReallocCond_true_iff, h0]
    omega
  have hm := makeSpace_free_ge
    { s with fBoundsIsDirty := true, fGenerationID := 0, fAllocSize := 0,
             fFreeSpace := 0, fVerbs := [], fPoints := [] }
    (vN * 1 + pN * ptSize + (rV * 1 + rP * ptSize))
  have hv := validI_makeSpace
    { s with fBoundsIsDirty := true, fGenerationID := 0, fAllocSize := 0,
             fFreeSpace := 0, fVerbs := [], fPoints := [] }
    (vN * 1 + pN * ptSize + (rV * 1 + rP * ptSize)) (by simp [validI])
  unfold validI at hv ⊢
  rw [resetToSize_alloc_realloc s vN pN cN rV rP hc,
    resetToSize_free_realloc s vN pN cN rV rP hc,
    resetToSize_fVerbs, resetToSize_fPoints]
  simp only [makeSpace_fVerbs, makeSpace_fPoints, List.length_nil,
    List.length_replicate] at hv ⊢
  omega

theorem validI_resetToSize_noReserve (s : SkPathRef) (vN pN cN : Nat)
    (h : validI s) :
    validI (resetToSize s vN pN cN 0 0) := by
  by_cases hc : resetReallocCond s.fAllocSize
      (vN * 1 + pN * ptSize + (0 * 1 + 0 * ptSize)) = true
  · have hm := makeSpace_free_ge
      { s with fBoundsIsDirty := true, fGenerationID := 0, fAllocSize := 0,
               fFreeSpace := 0, fVerbs := [], fPoints := [] }
      (vN * 1 + pN * ptSize + (0 * 1 + 0 * ptSize))
    have hv := validI_makeSpace
      { s with fBoundsIsDirty := true, fGenerationID := 0, fAllocSize := 0,
               fFreeSpace := 0, fVerbs := [], fPoints := [] }
      (vN * 1 + pN * ptSize + (0 * 1 + 0 * ptSize)) (by simp [validI])
    unfold validI at hv ⊢
    rw [resetToSize_alloc_realloc s vN pN cN 0 0 hc,
      resetToSize_free_realloc s vN pN cN 0 0 hc,
      resetToSize_fVerbs, resetToSize_fPoints]
    simp only [makeSpace_fVerbs, makeSpace_fPoints, List.length_nil,
      List.length_replicate] at hv ⊢
    omega
  · have hc2 := resetReallocCond_false _ _ (by simpa using hc)
    have hr := resetToSize_reuse s vN pN cN 0 0 (by simpa using hc)
    unfold validI at h ⊢
    rw [hr.1, hr.2, resetToSize_fVerbs, resetToSize_fPoints]
    simp only [List.length_replicate]
    omega

/-- C2: after every public operation of the container (construction,
makeSpace, grow, the spec-modelled growForVerb and growForConic, resetToSize
as the Editor calls it (no reservation hints), resetToSize on a freshly
constructed storage as SkPathRef::copy and Rewind call it, Rewind in both
ownership cases, and Editor construction in both ownership cases) the
allocation-size invariant asserted by SkPathRef::validate holds: currSize
equals freeSpace plus one byte per verb plus sizeof(SkPoint) bytes per
point. -/
theorem alloc_size_invariant :
    validI emptyPathRef ∧
    (∀ s size, validI s → validI (makeSpace s size)) ∧
    (∀ s nv np, validI s → validI (grow s nv np)) ∧
    (∀ s v, validI s → validI (growForVerb s v)) ∧
    (∀ s w, validI s → validI (growForConic s w)) ∧
    (∀ s vN pN cN, validI s → validI (resetToSize s vN pN cN 0 0)) ∧
    (∀ vN pN cN rV rP, validI (resetToSize emptyPathRef vN pN cN rV rP)) ∧
    (∀ s, validI s → validI (rewindUnique s)) ∧
    (∀ s, validI (rewindShared s)) ∧
    (∀ u s rv rp, validI s → validI (editorAttach u s rv rp)) := by
  have hgrow : ∀ s nv np, validI s → validI (grow s nv np) := by
    intro s nv np h
    have h1 := validI_makeSpace s (nv * 1 + np * ptSize) h
    have h2 := makeSpace_free_ge s (nv * 1 + np * ptSize)
    unfold validI at h1 ⊢
    simp only [grow, List.length_append, List.length_replicate,
      makeSpace_fVerbs, makeSpace_fPoints, ptSize] at h1 h2 ⊢
    omega
  have hverb : ∀ s v, validI s → validI (growForVerb s v) := by
    intro s v h
    have h1 := validI_makeSpace s (1 + pointsForVerb v * ptSize) h
    have h2 := makeSpace_free_ge s (1 + pointsForVerb v * ptSize)
    unfold validI at h1 ⊢
    simp only [growForVerb, List.length_append, List.length_replicate,
      List.length_cons, List.length_nil, makeSpace_fVerbs,
      makeSpace_fPoints, ptSize] at h1 h2 ⊢
    omega
  have hresetE : ∀ vN pN cN rV rP,
      validI (resetToSize emptyPathRef vN pN cN rV rP) := by
    intro vN pN cN rV rP
    exact validI_resetToSize_free emptyPathRef vN pN cN rV rP rfl
  refine ⟨by decide, validI_makeSpace, hgrow, hverb, ?_, ?_, hresetE, ?_, ?_, ?_⟩
  · intro s w h
    have h1 := hverb s 3 h
    unfold validI at h1 ⊢
    simpa [growForConic] using h1
  · intro s vN pN cN h
    exact validI_resetToSize_noReserve s vN pN cN h
  · intro s h
    unfold validI at h ⊢
    simp only [rewindUnique, List.length_nil]
    omega
  · intro s
    exact hresetE 0 0 0 s.fVerbs.length s.fPoints.length
  · intro u s rv rp h
    cases u with
    | true =>
      have h1 := validI_makeSpace s (rv * 1 + rp * ptSize) h
      unfold validI at h1 ⊢
      simpa [editorAttach, incReserve] using h1
    | false =>
      have hr := hresetE s.fVerbs.length s.fPoints.length
        s.fConicWeights.length rv rp
      unfold validI at hr ⊢
      simp only [resetToSize_fVerbs, resetToSize_fPoints,
        List.length_replicate] at hr
      simp only [editorAttach, pathRefCopy]
      rw [if_neg Bool.false_ne_true]
      split_ifs <;> simpa using hr

/-- C3: makeSpace growth rule, at byte level. For a storage whose buffer
satisfies the layout invariant (points in the low ptSize * pc bytes, verbs
in the high vc bytes, fs free bytes between), makeSpace(n) is a no-op when
fs is at least n; otherwise the allocation grows by exactly g, where g is
n - fs rounded up to a multiple of 8 and clamped up to at least the old
allocation size and at least kMinSize = 256; the free space increases by
exactly g, the point bytes at offset 0 are unchanged, and the old verb
bytes occupy the top vc bytes of the new allocation. -/
theorem make_space_buffer_layout (buf : List Nat) (vc pc fs n : Nat)
    (hlay : buf.length = pc * ptSize + fs + vc) :
    (n ≤ fs → makeSpaceBuf buf vc fs n = (buf, fs)) ∧
    (fs < n →
      growAmount buf.length fs n =
        max (max (((n - fs + 7) / 8) * 8) buf.length) kMinSize ∧
      (makeSpaceBuf buf vc fs n).1.length =
        buf.length + growAmount buf.length fs n ∧
      (makeSpaceBuf buf vc fs n).2 = fs + growAmount buf.length fs n ∧
      (makeSpaceBuf buf vc fs n).1.take (pc * ptSize) =
        buf.take (pc * ptSize) ∧
      (makeSpaceBuf buf vc fs n).1.drop
          ((makeSpaceBuf buf vc fs n).1.length - vc) =
        buf.drop (buf.length - vc)) := by
  constructor
  · intro h
    simp [makeSpaceBuf, h]
  · intro h
    have hn : ¬ n ≤ fs := by omega
    have hvc : vc ≤ buf.length := by
      have : 0 < ptSize := by decide
      omega
    have hge := growAmount_ge buf.length fs n
    constructor
    · simp only [growAmount, kMinSize]
      split_ifs <;> omega
    · simp only [makeSpaceBuf, if_neg hn]
      set g := growAmount buf.length fs n with hg
      have hlen1 : ((buf ++ List.replicate g 0).take (buf.length + g - vc)).length
          = buf.length + g - vc := by
        simp only [List.length_take, List.length_append, List.length_replicate]
        omega
      have hlen : (((buf ++ List.replicate g 0).take (buf.length + g - vc)) ++
          buf.drop (buf.length - vc)).length = buf.length + g := by
        simp only [List.length_append, hlen1, List.length_drop]
        omega
      refine ⟨hlen, trivial, ?_, ?_⟩
      · rw [List.take_append_of_le_length (by rw [hlen1]; omega),
          List.take_take, min_eq_left (by omega),
          List.take_append_of_le_length (by omega)]
      · rw [hlen]
        have hdrop : ∀ (A B : List Nat), A.length = buf.length + g - vc →
            (A ++ B).drop (buf.length + g - vc) = B := by
          intro A B hA
          rw [← hA]
          exact List.drop_left A B
        exact hdrop _ _ hlen1

/-- C7 counterexample: resetToSize(1, 1, 0, 0, 0) on a fresh storage takes
the reallocation branch (minSize = 9, currSize = 0), yet the new allocation
is not exactly minSize = 9 bytes (makeSpace rounds up to a multiple of 8
and clamps to kMinSize = 256). -/
theorem reset_to_size_exact_min_cex :
    resetReallocCond emptyPathRef.fAllocSize
        (1 * 1 + 1 * ptSize + (0 * 1 + 0 * ptSize)) = true ∧
    (resetToSize emptyPathRef 1 1 0 0 0).fAllocSize ≠
      1 * 1 + 1 * ptSize + (0 * 1 + 0 * ptSize) := by
  decide

/-- C7 (amended): the buffer is freed and reallocated exactly when
currSize < minSize or currSize - minSize is at least 3 * minSize, and in
that case the new allocation is minSize rounded up to a multiple of 8 and
clamped up to at least kMinSize = 256 bytes (hence at least minSize), or 0
when minSize = 0. -/
theorem reset_to_size_realloc_spec (s : SkPathRef) (vN pN cN rV rP : Nat) :
    (resetReallocCond s.fAllocSize
        (vN * 1 + pN * ptSize + (rV * 1 + rP * ptSize)) = true ↔
      (s.fAllocSize < vN * 1 + pN * ptSize + (rV * 1 + rP * ptSize) ∨
       s.fAllocSize - (vN * 1 + pN * ptSize + (rV * 1 + rP * ptSize)) ≥
         3 * (vN * 1 + pN * ptSize + (rV * 1 + rP * ptSize)))) ∧
    (resetReallocCond s.fAllocSize
        (vN * 1 + pN * ptSize + (rV * 1 + rP * ptSize)) = true →
      (resetToSize s vN pN cN rV rP).fAllocSize =
        if vN * 1 + pN * ptSize + (rV * 1 + rP * ptSize) = 0 then 0
        else max (((vN * 1 + pN * ptSize + (rV * 1 + rP * ptSize) + 7) / 8) * 8)
          kMinSize) := by
  refine ⟨resetReallocCond_true_iff _ _, ?_⟩
  intro hc
  rw [resetToSize_alloc_realloc s vN pN cN rV rP hc, makeSpace_alloc]
  by_cases h0 : vN * 1 + pN * ptSize + (rV * 1 + rP * ptSize) = 0
  · simp only [h0]
    simp
  · rw [if_neg (fun hle => h0 (Nat.le_zero.mp hle)), if_neg h0]
    show (0 : Nat) + growAmount 0 0 (vN * 1 + pN * ptSize + (rV * 1 + rP * ptSize)) = _
    simp only [growAmount, kMinSize, Nat.zero_add]
    split_ifs <;> omega

/-- C8 evaluated at the failing input: a 256-byte storage (makeSpace from a
fresh storage) on which resetToSize(0, 10, 0, reserveV = 0, reserveP = 2)
takes the reuse branch (minSize = 96, sizeDelta = 160 < 288). The code sets
freeSpace to currSize - minSize = 160, not currSize - newSize = 176 as the
claim (and the validate invariant) require, so the resulting storage
violates validI. -/
theorem reset_to_size_reuse_free_space_bug :
    resetReallocCond (makeSpace emptyPathRef 1).fAllocSize
        (0 * 1 + 10 * ptSize + (0 * 1 + 2 * ptSize)) = false ∧
    (resetToSize (makeSpace emptyPathRef 1) 0 10 0 0 2).fVerbs.length = 0 ∧
    (resetToSize (makeSpace emptyPathRef 1) 0 10 0 0 2).fPoints.length = 10 ∧
    (resetToSize (makeSpace emptyPathRef 1) 0 10 0 0 2).fFreeSpace = 160 ∧
    (resetToSize (makeSpace emptyPathRef 1) 0 10 0 0 2).fFreeSpace ≠
      (makeSpace emptyPathRef 1).fAllocSize - (0 * 1 + 10 * ptSize) ∧
    ¬ validI (resetToSize (makeSpace emptyPathRef 1) 0 10 0 0 2) := by
  decide

/-- C4: operator== returns true exactly when point counts, verb counts,
verb bytes, point bytes and conic weights all match. The hypothesis is the
generation-ID soundness invariant that the Editor protocol maintains for
every storage reachable through the public interface (equal nonzero IDs
only ever arise for content-equal storages: fresh IDs are drawn from a
monotone counter, IDs are copied only together with the content, and every
mutation first clears the ID); under it the SK_RELEASE shortcut never
disagrees with the deep comparison. -/
theorem operator_eq_content (a b : SkPathRef)
    (hgen : a.fGenerationID ≠ 0 → a.fGenerationID = b.fGenerationID →
      contentEq a b) :
    (opEq a b = true ↔ contentEq a b) := by
  unfold opEq
  split_ifs with h1 h2 h3 h4 h5
  · exact iff_of_true rfl (hgen h1.1 h1.2)
  · refine iff_of_false (by simp) ?_
    intro hce
    rcases h2 with h | h
    · exact h hce.1
    · exact h hce.2.1
  · exact iff_of_false (by simp) fun hce => h3 hce.2.2.1
  · exact iff_of_false (by simp) fun hce => h4 hce.2.2.2.1
  · exact iff_of_false (by simp) fun hce => h5 hce.2.2.2.2
  · push_neg at h2
    exact iff_of_true rfl
      ⟨h2.1, h2.2, not_not.mp h3, not_not.mp h4, not_not.mp h5⟩

/-- C4 witness: two distinct storages with identical content, one with a
zero generation ID, compare equal. -/
theorem operator_eq_content_witness :
    (({ emptyPathRef with fGenerationID := 0 } : SkPathRef).fGenerationID ≠ 0 →
      ({ emptyPathRef with fGenerationID := 0 } : SkPathRef).fGenerationID =
        emptyPathRef.fGenerationID →
      contentEq { emptyPathRef with fGenerationID := 0 } emptyPathRef) ∧
    (opEq { emptyPathRef with fGenerationID := 0 } emptyPathRef = true ↔
      contentEq { emptyPathRef with fGenerationID := 0 } emptyPathRef) :=
  ⟨by decide, operator_eq_content _ _ (by decide)⟩

/-- C9: computing the bounds of a storage with at most one point, via
getBounds or isFinite on a dirty cache, sets the bounds to the empty
rectangle; the finiteness flag becomes true for zero points and the
finiteness of the single point otherwise. -/
theorem degenerate_bounds (s : SkPathRef) (hd : s.fBoundsIsDirty = true)
    (hle : s.fPoints.length ≤ 1) :
    (getBoundsSt s).1 = emptyRect ∧
    ((getBoundsSt s).2).fBounds = emptyRect ∧
    (isFiniteSt s).1 =
      (if s.fPoints.length = 0 then true
       else (s.fPoints.headD ptZero).isFiniteP) ∧
    ((isFiniteSt s).2).fIsFinite = (isFiniteSt s).1 := by
  simp only [getBoundsSt, isFiniteSt, computeBounds, ComputePtBounds, hd,
    if_true, if_pos hle]
  refine ⟨trivial, trivial, ?_, trivial⟩
  split_ifs with h1 h2 <;> first | rfl | omega

/-- C9 witness: a single storage holding one non-finite point. -/
theorem degenerate_bounds_witness :
    (({ emptyPathRef with
        fPoints := [⟨⟨0, false⟩, scalarZero⟩] } : SkPathRef).fBoundsIsDirty
      = true) ∧
    (({ emptyPathRef with
        fPoints := [⟨⟨0, false⟩, scalarZero⟩] } : SkPathRef).fPoints.length ≤ 1) ∧
    ((getBoundsSt { emptyPathRef with
        fPoints := [⟨⟨0, false⟩, scalarZero⟩] }).1 = emptyRect ∧
     ((getBoundsSt { emptyPathRef with
        fPoints := [⟨⟨0, false⟩, scalarZero⟩] }).2).fBounds = emptyRect ∧
     (isFiniteSt { emptyPathRef with
        fPoints := [⟨⟨0, false⟩, scalarZero⟩] }).1 =
       (if ({ emptyPathRef with
          fPoints := [⟨⟨0, false⟩, scalarZero⟩] } : SkPathRef).fPoints.length = 0
        then true
        else (({ emptyPathRef with
          fPoints := [⟨⟨0, false⟩, scalarZero⟩] } : SkPathRef).fPoints.headD
            ptZero).isFiniteP) ∧
     ((isFiniteSt { emptyPathRef with
        fPoints := [⟨⟨0, false⟩, scalarZero⟩] }).2).fIsFinite =
       (isFiniteSt { emptyPathRef with
        fPoints := [⟨⟨0, false⟩, scalarZero⟩] }).1) :=
  ⟨by decide, by decide,
    degenerate_bounds _ (by decide) (by decide)⟩

/-- Field-by-field description of SkPathRef::copy: it reproduces the verbs,
points, conic weights, generation ID and the bounds cache of its source
(bounds and finiteness values only when the cache is clean). -/
theorem pathRefCopy_fields (ref : SkPathRef) (rv rp : Nat) :
    (pathRefCopy ref rv rp).fVerbs = ref.fVerbs ∧
    (pathRefCopy ref rv rp).fPoints = ref.fPoints ∧
    (pathRefCopy ref rv rp).fConicWeights = ref.fConicWeights ∧
    (pathRefCopy ref rv rp).fGenerationID = ref.fGenerationID ∧
    (pathRefCopy ref rv rp).fBoundsIsDirty = ref.fBoundsIsDirty ∧
    (ref.fBoundsIsDirty = false →
      (pathRefCopy ref rv rp).fBounds = ref.fBounds ∧
      (pathRefCopy ref rv rp).fIsFinite = ref.fIsFinite) := by
  unfold pathRefCopy
  split_ifs with h
  · exact ⟨rfl, rfl, rfl, rfl, rfl, fun hf => absurd h (by simp [hf])⟩
  · exact ⟨rfl, rfl, rfl, rfl, rfl, fun _ => ⟨rfl, rfl⟩⟩

/-- C1: copy-on-write on Editor attach. In a world where handles A and B
share one storage, constructing an Editor on A redirects A to a freshly
allocated storage whose verbs, points, conic weights and bounds cache equal
the shared ones, with generation ID 0; handle B still references the old
storage, entirely unchanged, and A and B now reference distinct
storages. -/
theorem editor_cow (w : ShareWorld) (rv rp : Nat)
    (hsh : w.hB = w.hA) (hlt : w.hA < w.heap.length) :
    (editorAttachA w rv rp).hA ≠ (editorAttachA w rv rp).hB ∧
    (editorAttachA w rv rp).heap.getD (editorAttachA w rv rp).hB emptyPathRef
      = w.heap.getD w.hA emptyPathRef ∧
    ((editorAttachA w rv rp).heap.getD (editorAttachA w rv rp).hA
        emptyPathRef).fVerbs = (w.heap.getD w.hA emptyPathRef).fVerbs ∧
    ((editorAttachA w rv rp).heap.getD (editorAttachA w rv rp).hA
        emptyPathRef).fPoints = (w.heap.getD w.hA emptyPathRef).fPoints ∧
    ((editorAttachA w rv rp).heap.getD (editorAttachA w rv rp).hA
        emptyPathRef).fConicWeights =
      (w.heap.getD w.hA emptyPathRef).fConicWeights ∧
    ((editorAttachA w rv rp).heap.getD (editorAttachA w rv rp).hA
        emptyPathRef).fBoundsIsDirty =
      (w.heap.getD w.hA emptyPathRef).fBoundsIsDirty ∧
    ((w.heap.getD w.hA emptyPathRef).fBoundsIsDirty = false →
      ((editorAttachA w rv rp).heap.getD (editorAttachA w rv rp).hA
          emptyPathRef).fBounds = (w.heap.getD w.hA emptyPathRef).fBounds ∧
      ((editorAttachA w rv rp).heap.getD (editorAttachA w rv rp).hA
          emptyPathRef).fIsFinite =
        (w.heap.getD w.hA emptyPathRef).fIsFinite) ∧
    ((editorAttachA w rv rp).heap.getD (editorAttachA w rv rp).hA
        emptyPathRef).fGenerationID = 0 := by
  have hgetA : (editorAttachA w rv rp).heap.getD (editorAttachA w rv rp).hA
      emptyPathRef =
      editorAttach false (w.heap.getD w.hA emptyPathRef) rv rp := by
    simp only [editorAttachA, if_pos hsh]
    rw [List.getD_append_right _ _ _ _ (Nat.le_refl _)]
    simp
  have hgetB : (editorAttachA w rv rp).heap.getD (editorAttachA w rv rp).hB
      emptyPathRef = w.heap.getD w.hA emptyPathRef := by
    simp only [editorAttachA, if_pos hsh]
    rw [hsh, List.getD_append _ _ _ _ hlt]
  have hAB : (editorAttachA w rv rp).hA ≠ (editorAttachA w rv rp).hB := by
    simp only [editorAttachA, if_pos hsh]
    rw [hsh]
    omega
  have hcp := pathRefCopy_fields (w.heap.getD w.hA emptyPathRef) rv rp
  refine ⟨hAB, hgetB, ?_, ?_, ?_, ?_, ?_, ?_⟩ <;>
    rw [hgetA] <;>
    simp only [editorAttach, if_neg Bool.false_ne_true]
  · exact hcp.1
  · exact hcp.2.1
  · exact hcp.2.2.1
  · exact hcp.2.2.2.2.1
  · intro hf
    exact hcp.2.2.2.2.2 hf

/-- C6: the bounds fast path of CreateTransformedCopy with a non-identity
matrix. When the src bounds are clean, the matrix preserves rectangles and
src has more than one point, the result has a clean bounds cache whose
content mirrors the source: for a finite src the mapped rectangle (emptied
with finiteness cleared when the mapped rectangle is not finite), and for a
non-finite src the empty rectangle with finiteness cleared. In every other
non-identity case the result bounds are marked dirty. -/
theorem transform_bounds_fast_path (u : Bool) (dst src : SkPathRef)
    (m : SkMatrix) (hm : m.isIdentityM = false) :
    (src.fBoundsIsDirty = false → m.rectStaysRectM = true →
      1 < src.fPoints.length →
      (CreateTransformedCopy u dst src m).fBoundsIsDirty = false ∧
      (src.fIsFinite = true →
        ((m.mapRectM src.fBounds).isFiniteR = true →
          (CreateTransformedCopy u dst src m).fBounds = m.mapRectM src.fBounds ∧
          (CreateTransformedCopy u dst src m).fIsFinite = true) ∧
        ((m.mapRectM src.fBounds).isFiniteR = false →
          (CreateTransformedCopy u dst src m).fBounds = emptyRect ∧
          (CreateTransformedCopy u dst src m).fIsFinite = false)) ∧
      (src.fIsFinite = false →
        (CreateTransformedCopy u dst src m).fBounds = emptyRect ∧
        (CreateTransformedCopy u dst src m).fIsFinite = false)) ∧
    (¬(src.fBoundsIsDirty = false ∧ m.rectStaysRectM = true ∧
        1 < src.fPoints.length) →
      (CreateTransformedCopy u dst src m).fBoundsIsDirty = true) := by
  simp only [CreateTransformedCopy, hm, Bool.false_eq_true, if_false]
  constructor
  · intro hdir hrsr hcnt
    rw [if_pos (by simp [hdir, hrsr, hcnt])]
    refine ⟨?_, ?_, ?_⟩
    · split_ifs <;> rfl
    · intro hfin
      rw [if_pos hfin]
      constructor
      · intro hmf
        rw [if_pos hmf]
        exact ⟨rfl, rfl⟩
      · intro hmf
        rw [if_neg (by simp [hmf])]
        exact ⟨rfl, rfl⟩
    · intro hfin
      rw [if_neg (by simp [hfin])]
      exact ⟨rfl, rfl⟩
  · intro hno
    rw [if_neg (by simpa [not_and, Bool.not_eq_true] using hno)]

/-- C6 witness: a rect-preserving non-identity matrix applied to a clean,
finite, two-point source lands on the fast path and leaves a clean bounds
cache. -/
theorem transform_bounds_fast_path_witness :
    (({ isIdentityM := false, rectStaysRectM := true, mapPointM := id,
        mapRectM := id } : SkMatrix)).isIdentityM = false ∧
    ({ emptyPathRef with
       fPoints := [ptZero, ptZero], fBoundsIsDirty := false,
       fIsFinite := true } : SkPathRef).fBoundsIsDirty = false ∧
    1 < ({ emptyPathRef with
           fPoints := [ptZero, ptZero], fBoundsIsDirty := false,
           fIsFinite := true } : SkPathRef).fPoints.length ∧
    (CreateTransformedCopy true emptyPathRef
      { emptyPathRef with
        fPoints := [ptZero, ptZero], fBoundsIsDirty := false,
        fIsFinite := true }
      { isIdentityM := false, rectStaysRectM := true, mapPointM := id,
        mapRectM := id }).fBoundsIsDirty = false :=
  ⟨rfl, rfl, by decide,
    ((transform_bounds_fast_path true emptyPathRef
      { emptyPathRef with
        fPoints := [ptZero, ptZero], fBoundsIsDirty := false,
        fIsFinite := true }
      { isIdentityM := false, rectStaysRectM := true, mapPointM := id,
        mapRectM := id } rfl).1 rfl rfl (by decide)).1⟩

/-- C10: CreateTransformedCopy with a non-identity matrix and a uniquely
owned dst leaves the dst verbs, conic weights, verb count and allocation
untouched and writes exactly countPoints(src) mapped points at the start of
the dst point region, so the dst point count is preserved precisely under
the precondition that dst already holds a point region of the src layout;
verbs and weights are copied into dst only on the not-uniquely-owned
branch. -/
theorem transformed_copy_unique_dst (dst src : SkPathRef) (m : SkMatrix)
    (hm : m.isIdentityM = false) :
    (CreateTransformedCopy true dst src m).fVerbs = dst.fVerbs ∧
    (CreateTransformedCopy true dst src m).fConicWeights =
      dst.fConicWeights ∧
    (CreateTransformedCopy true dst src m).fAllocSize = dst.fAllocSize ∧
    (CreateTransformedCopy true dst src m).fFreeSpace = dst.fFreeSpace ∧
    (CreateTransformedCopy true dst src m).fGenerationID =
      dst.fGenerationID ∧
    (CreateTransformedCopy true dst src m).fPoints =
      src.fPoints.map m.mapPointM ++ dst.fPoints.drop src.fPoints.length ∧
    (dst.fPoints.length = src.fPoints.length →
      (CreateTransformedCopy true dst src m).fPoints.length =
        dst.fPoints.length ∧
      (CreateTransformedCopy true dst src m).fPoints =
        src.fPoints.map m.mapPointM) ∧
    (CreateTransformedCopy false dst src m).fVerbs = src.fVerbs ∧
    (CreateTransformedCopy false dst src m).fConicWeights =
      src.fConicWeights := by
  simp only [CreateTransformedCopy, hm, Bool.false_eq_true, if_false,
    if_neg Bool.false_ne_true, if_pos rfl]
  refine ⟨?_, ?_, ?_, ?_, ?_, ?_, ?_, ?_, ?_⟩
  · split_ifs <;> rfl
  · split_ifs <;> rfl
  · split_ifs <;> rfl
  · split_ifs <;> rfl
  · split_ifs <;> rfl
  · split_ifs <;> rfl
  · intro hlen
    constructor
    · split_ifs <;>
        simp [List.length_append, List.length_map, List.length_drop, hlen]
    · split_ifs <;>
        simp [List.drop_eq_nil_of_le (Nat.le_of_eq hlen)]
  · split_ifs <;> rfl
  · split_ifs <;> rfl

/-- C10 witness: a uniquely owned dst whose point region matches the src
layout keeps its verbs and its point count. -/
theorem transformed_copy_unique_dst_witness :
    (({ isIdentityM := false, rectStaysRectM := false, mapPointM := id,
        mapRectM := id } : SkMatrix)).isIdentityM = false ∧
    ({ emptyPathRef with fPoints := [ptZero] } : SkPathRef).fPoints.length =
      ({ emptyPathRef with fPoints := [ptZero] } : SkPathRef).fPoints.length ∧
    (CreateTransformedCopy true
        { emptyPathRef with fPoints := [ptZero] }
        { emptyPathRef with fPoints := [ptZero] }
        { isIdentityM := false, rectStaysRectM := false, mapPointM := id,
          mapRectM := id }).fVerbs =
      ({ emptyPathRef with fPoints := [ptZero] } : SkPathRef).fVerbs ∧
    (CreateTransformedCopy true
        { emptyPathRef with fPoints := [ptZero] }
        { emptyPathRef with fPoints := [ptZero] }
        { isIdentityM := false, rectStaysRectM := false, mapPointM := id,
          mapRectM := id }).fPoints.length =
      ({ emptyPathRef with fPoints := [ptZero] } : SkPathRef).fPoints.length :=
  ⟨rfl, rfl,
    (transformed_copy_unique_dst
      { emptyPathRef with fPoints := [ptZero] }
      { emptyPathRef with fPoints := [ptZero] }
      { isIdentityM := false, rectStaysRectM := false, mapPointM := id,
        mapRectM := id } rfl).1,
    ((transformed_copy_unique_dst
      { emptyPathRef with fPoints := [ptZero] }
      { emptyPathRef with fPoints := [ptZero] }
      { isIdentityM := false, rectStaysRectM := false, mapPointM := id,
        mapRectM := id } rfl).2.2.2.2.2.2.1 rfl).1⟩

/-! Lemmas about the generation-ID draw loop: with fuel 2^32 it always
terminates on a value in [2, 2^31), i.e. a signed-positive int32 greater
than kEmptyGenID. -/

theorem genLoop_good (fuel g : Nat) (h2 : 2 ≤ (g + 1) % 4294967296)
    (hH : (g + 1) % 4294967296 < 2147483648) :
    genLoop fuel g = (g + 1) % 4294967296 := by
  cases fuel with
  | zero => rfl
  | succ f =>
    simp only [genLoop]
    rw [if_neg (by omega)]

theorem genLoop_one (fuel : Nat) (h : 1 ≤ fuel) : genLoop fuel 1 = 2 := by
  cases fuel with
  | zero => omega
  | succ f =>
    simp only [genLoop]
    rw [if_neg (by decide)]

theorem genLoop_zero (fuel : Nat) (h : 2 ≤ fuel) : genLoop fuel 0 = 2 := by
  obtain ⟨f, rfl⟩ : ∃ f, fuel = f + 1 := ⟨fuel - 1, by omega⟩
  simp only [genLoop]
  rw [if_pos (by decide)]
  show genLoop f 1 = 2
  exact genLoop_one f (by omega)

theorem genLoop_high (k : Nat) : ∀ fuel g : Nat, g = 4294967296 - k →
    2147483648 ≤ g → k + 2 ≤ fuel → genLoop fuel g = 2 := by
  induction k with
  | zero =>
    intro fuel g hg hH hf
    subst hg
    obtain ⟨f, rfl⟩ : ∃ f, fuel = f + 1 := ⟨fuel - 1, by omega⟩
    simp only [genLoop]
    rw [if_pos (by decide)]
    show genLoop f 1 = 2
    exact genLoop_one f (by omega)
  | succ k ih =>
    intro fuel g hg hH hf
    subst hg
    obtain ⟨f, rfl⟩ : ∃ f, fuel = f + 1 := ⟨fuel - 1, by omega⟩
    simp only [genLoop]
    by_cases hk : k = 0
    · subst hk
      rw [if_pos (by decide)]
      show genLoop f 0 = 2
      exact genLoop_zero f (by omega)
    · have hkN : k + 1 ≤ 4294967296 := by omega
      have hi : (4294967296 - (k + 1) + 1) % 4294967296 = 4294967296 - k := by
        have he : 4294967296 - (k + 1) + 1 = 4294967296 - k := by omega
        rw [he, Nat.mod_eq_of_lt (by omega)]
      rw [hi, if_pos (Or.inr (by omega))]
      exact ih f (4294967296 - k) rfl (by omega) (by omega)

theorem nextGenID_valid (g : Nat) (_hg : g < 4294967296) :
    2 ≤ nextGenID g ∧ nextGenID g < 2147483648 := by
  unfold nextGenID
  by_cases h2 : 2 ≤ (g + 1) % 4294967296 ∧ (g + 1) % 4294967296 < 2147483648
  · rw [genLoop_good _ _ h2.1 h2.2]
    exact h2
  · push_neg at h2
    have hone : genLoop 4294967296 g = genLoop (4294967295 + 1) g := rfl
    have hsucc : ∀ f gg : Nat, genLoop (f + 1) gg =
        if (gg + 1) % 4294967296 ≤ 1 ∨ 2147483648 ≤ (gg + 1) % 4294967296
        then genLoop f ((gg + 1) % 4294967296)
        else (gg + 1) % 4294967296 := fun f gg => rfl
    rw [hone, hsucc, if_pos (by omega)]
    have hiN : (g + 1) % 4294967296 < 4294967296 := Nat.mod_lt _ (by decide)
    rcases (by omega : (g + 1) % 4294967296 ≤ 1 ∨
        2147483648 ≤ (g + 1) % 4294967296) with hlow | hhigh
    · rcases (by omega : (g + 1) % 4294967296 = 0 ∨
          (g + 1) % 4294967296 = 1) with h0 | h1
      · rw [h0, genLoop_zero _ (by norm_num)]
        exact ⟨by norm_num, by norm_num⟩
      · rw [h1, genLoop_one _ (by norm_num)]
        exact ⟨by norm_num, by norm_num⟩
    · rw [genLoop_high (4294967296 - (g + 1) % 4294967296) 4294967295
        ((g + 1) % 4294967296) (by omega) hhigh (by omega)]
      exact ⟨by norm_num, by norm_num⟩

/-- C5: generation-ID assignment by genID(). On a storage whose stamp is
unassigned (zero): empty content receives the reserved empty ID 1; nonempty
content receives a value drawn from the process-wide counter that is
neither 0 nor 1 (the draw loop skips 0, 1 and every value that is
nonpositive as a signed int32); a storage whose stamp is already assigned
keeps it; and a second call after any first call returns the value the
first call stored. -/
theorem gen_id_assignment :
    (∀ s g, s.fGenerationID = 0 → s.fPoints.length = 0 →
      s.fVerbs.length = 0 → (genIDRun s g).1 = 1) ∧
    (∀ s g, g < 4294967296 → s.fGenerationID = 0 →
      ¬(s.fPoints.length = 0 ∧ s.fVerbs.length = 0) →
      (genIDRun s g).1 ≠ 0 ∧ (genIDRun s g).1 ≠ 1) ∧
    (∀ s g, s.fGenerationID ≠ 0 →
      (genIDRun s g).1 = s.fGenerationID ∧ (genIDRun s g).2.1 = s) ∧
    (∀ s g g2, g < 4294967296 →
      (genIDRun (genIDRun s g).2.1 g2).1 = (genIDRun s g).1) := by
  have hempty : ∀ s g, s.fGenerationID = 0 → s.fPoints.length = 0 →
      s.fVerbs.length = 0 → (genIDRun s g).1 = 1 := by
    intro s g h0 hp hv
    simp [genIDRun, h0, hp, hv]
  have hfresh : ∀ s g, g < 4294967296 → s.fGenerationID = 0 →
      ¬(s.fPoints.length = 0 ∧ s.fVerbs.length = 0) →
      (genIDRun s g).1 ≠ 0 ∧ (genIDRun s g).1 ≠ 1 := by
    intro s g hg h0 hne
    have hv := nextGenID_valid g hg
    simp only [genIDRun, if_pos h0, if_neg hne]
    omega
  have hkeep : ∀ s g, s.fGenerationID ≠ 0 →
      (genIDRun s g).1 = s.fGenerationID ∧ (genIDRun s g).2.1 = s := by
    intro s g h0
    simp [genIDRun, h0]
  refine ⟨hempty, hfresh, hkeep, ?_⟩
  intro s g g2 hg
  by_cases h0 : s.fGenerationID = 0
  · by_cases hev : s.fPoints.length = 0 ∧ s.fVerbs.length = 0
    · simp [genIDRun, h0, hev.1, hev.2]
    · have hv := nextGenID_valid g hg
      simp only [genIDRun, if_pos h0, if_neg hev]
      rw [if_neg (show ¬(nextGenID g = 0) from by omega)]
  · rw [(hkeep s g h0).2, (hkeep s g2 h0).1, (hkeep s g h0).1]

/-- C5 witness: a nonempty storage with an unassigned stamp receives a
fresh ID that is neither 0 nor 1. -/
theorem gen_id_assignment_witness :
    (0 : Nat) < 4294967296 ∧
    ({ emptyPathRef with
       fGenerationID := 0, fPoints := [ptZero] } : SkPathRef).fGenerationID
      = 0 ∧
    ¬(({ emptyPathRef with
         fGenerationID := 0, fPoints := [ptZero] } : SkPathRef
        ).fPoints.length = 0 ∧
      ({ emptyPathRef with
         fGenerationID := 0, fPoints := [ptZero] } : SkPathRef
        ).fVerbs.length = 0) ∧
    ((genIDRun { emptyPathRef with
        fGenerationID := 0, fPoints := [ptZero] } 0).1 ≠ 0 ∧
     (genIDRun { emptyPathRef with
        fGenerationID := 0, fPoints := [ptZero] } 0).1 ≠ 1) :=
  ⟨by decide, by decide, by decide,
    gen_id_assignment.2.1 _ 0 (by decide) (by decide) (by decide)⟩

/-- C1 witness: two handles sharing one empty storage; attaching an Editor
to A separates the handles. -/
theorem editor_cow_witness :
    ({ heap := [emptyPathRef], hA := 0, hB := 0 } : ShareWorld).hB =
      ({ heap := [emptyPathRef], hA := 0, hB := 0 } : ShareWorld).hA ∧
    ({ heap := [emptyPathRef], hA := 0, hB := 0 } : ShareWorld).hA <
      ({ heap := [emptyPathRef], hA := 0, hB := 0 } : ShareWorld).heap.length ∧
    (editorAttachA { heap := [emptyPathRef], hA := 0, hB := 0 } 1 2).hA ≠
      (editorAttachA { heap := [emptyPathRef], hA := 0, hB := 0 } 1 2).hB :=
  ⟨rfl, by decide, (editor_cow { heap := [emptyPathRef], hA := 0, hB := 0 }
    1 2 rfl (by decide)).1⟩

/-- C2 witness: the invariant holds for a fresh storage and is preserved by
a concrete grow. -/
theorem alloc_size_invariant_witness :
    validI emptyPathRef ∧ validI (grow emptyPathRef 2 3) :=
  ⟨by decide, alloc_size_invariant.2.2.1 emptyPathRef 2 3 (by decide)⟩

/-- C3 witness: a 16-byte buffer holding one point, two verb bytes and six
free bytes, asked for seven bytes of free space. -/
theorem make_space_buffer_layout_witness :
    ((List.replicate 16 1 : List Nat).length = 1 * ptSize + 6 + 2) ∧
    (6 < 7) ∧
    ((makeSpaceBuf (List.replicate 16 1) 2 6 7).2 =
      6 + growAmount (List.replicate 16 1 : List Nat).length 6 7) ∧
    ((makeSpaceBuf (List.replicate 16 1) 2 6 7).1.drop
        ((makeSpaceBuf (List.replicate 16 1) 2 6 7).1.length - 2) =
      (List.replicate 16 1 : List Nat).drop
        ((List.replicate 16 1 : List Nat).length - 2)) :=
  ⟨by decide, by decide,
    ((make_space_buffer_layout (List.replicate 16 1) 2 1 6 7
      (by decide)).2 (by decide)).2.2.1,
    ((make_space_buffer_layout (List.replicate 16 1) 2 1 6 7
      (by decide)).2 (by decide)).2.2.2.2⟩

/-- C7 witness: resetToSize(1, 1, 0) on a fresh storage reallocates and the
new allocation is the amended amount (256 bytes, not minSize = 9). -/
theorem reset_to_size_realloc_spec_witness :
    resetReallocCond emptyPathRef.fAllocSize
      (1 * 1 + 1 * ptSize + (0 * 1 + 0 * ptSize)) = true ∧
    (resetToSize emptyPathRef 1 1 0 0 0).fAllocSize =
      (if 1 * 1 + 1 * ptSize + (0 * 1 + 0 * ptSize) = 0 then 0
       else max (((1 * 1 + 1 * ptSize + (0 * 1 + 0 * ptSize) + 7) / 8) * 8)
         kMinSize) :=
  ⟨by decide, (reset_to_size_realloc_spec emptyPathRef 1 1 0 0 0).2
    (by decide)⟩

end SkiaPathRef
